import Mathlib

/-!
Verification of `cccards.py` (Elleo/cccards): a deck builder that loads
weighted card lists from delimiter-separated files, balances and shuffles
two decks for double-sided printing, appends wildcard markers, and renders
the cards into a fixed 28-cards-per-page grid.

The embedding is shallow: the CSV reader's output is modelled as a list of
records (each record a list of field strings), Python exceptions as an
`Except PyErr` result, and the global random source as explicit oracle
streams of natural numbers (`random.choice`) and permutation functions
(`random.shuffle`).
-/

/-- Python exception outcomes relevant to `cccards.py`.  The running code
only ever raises `indexError` (sequence subscript out of range, including
`random.choice` on an empty sequence) and `valueError` (`int()` on a
non-numeric string).  The constructors `parseError` and `emptyDeckError`
are error kinds named by the design spec; they are included so statements
about them can be expressed, but no function of the code produces them. -/
inductive PyErr where
  | indexError
  | valueError
  | parseError
  | emptyDeckError
  deriving DecidableEq, Repr

/-- Digit-string parse used by `pyInt`: `some` of the value when the
character list is non-empty and all characters are decimal digits,
`none` otherwise. -/
def parseDigits (cs : List Char) : Option Nat :=
  match cs with
  | [] => none
  | _ =>
    if cs.all (fun c => c.isDigit) then
      some (cs.foldl (fun a c => a * 10 + (c.toNat - 48)) 0)
    else none

/-- Python `int(s)` on a string argument, as used at line 79 of
`cccards.py`: an optional sign followed by decimal digits yields the
signed value; anything else raises `ValueError`.  (The exotic accepted
forms of CPython `int` — surrounding whitespace and underscore digit
separators — are not modelled; none of the claims depend on them.) -/
def pyInt (s : String) : Except PyErr Int :=
  match s.data with
  | '-' :: cs =>
      match parseDigits cs with
      | some n => Except.ok (-(n : Int))
      | none => Except.error PyErr.valueError
  | '+' :: cs =>
      match parseDigits cs with
      | some n => Except.ok ((n : Int))
      | none => Except.error PyErr.valueError
  | cs =>
      match parseDigits cs with
      | some n => Except.ok ((n : Int))
      | none => Except.error PyErr.valueError

/-- Python list repetition `[x] * k` for an `int` k: a negative or zero
count yields the empty list. -/
def pyRep (x : α) (k : Int) : List α :=
  List.replicate k.toNat x

/-- One iteration of the `for row in data` body of `DeckBuilder.load_csv`
(line 79): `cards += [row[0]] * int(row[1])`.  `row[0]` on an empty record
and `row[1]` on a one-field record raise `IndexError`; a weight field that
is not an integer literal raises `ValueError` inside `int`. -/
def loadRow (row : List String) : Except PyErr (List String) :=
  match row with
  | [] => Except.error PyErr.indexError
  | [_] => Except.error PyErr.indexError
  | text :: w :: _ =>
      match pyInt w with
      | Except.ok k => Except.ok (pyRep text k)
      | Except.error e => Except.error e

/-- Embedding of `DeckBuilder.load_csv` (lines 63-80), after the file has been read and
split into records by `csv.reader`: fold the rows in file order,
accumulating `[row[0]] * int(row[1])`; the first raising row aborts the
whole call with its exception. -/
def load_csv (rows : List (List String)) : Except PyErr (List String) :=
  match rows with
  | [] => Except.ok []
  | row :: rest =>
      match loadRow row with
      | Except.error e => Except.error e
      | Except.ok cs =>
          match load_csv rest with
          | Except.error e => Except.error e
          | Except.ok more => Except.ok (cs ++ more)

/-- Embedding of `random.choice(seq)` (lines 89, 91) with the process-wide random state
modelled by an oracle natural number `k`: returns the element at index
`k % len(seq)`; on an empty sequence `random.choice` raises `IndexError`. -/
def pyChoice (l : List α) (k : Nat) : Except PyErr α :=
  match l.get? (k % l.length) with
  | some x => Except.ok x
  | none => Except.error PyErr.indexError

/-- Runs `n` executions of a `while`-loop body `deck.append(random.choice(deck))`
(lines 88-91), consuming one oracle value per iteration; the first failing
choice aborts with its exception. -/
def growLoop (r : Nat → Nat) : Nat → List α → Except PyErr (List α)
  | 0, deck => Except.ok deck
  | n + 1, deck =>
      match pyChoice deck (r 0) with
      | Except.error e => Except.error e
      | Except.ok x => growLoop (fun i => r (i + 1)) n (deck ++ [x])

/-- One `while len(longer) > len(deck): deck.append(random.choice(deck))`
loop of `DeckBuilder.balance`.  Each successful iteration grows `deck` by
exactly one card, so the body executes exactly `target - deck.length`
times; the loop is embedded with that iteration count. -/
def growTo (target : Nat) (deck : List α) (r : Nat → Nat) : Except PyErr (List α) :=
  growLoop r (target - deck.length) deck

/-- Embedding of `DeckBuilder.balance` (lines 82-91): first pad the back deck up to the
front deck's length, then pad the front deck up to the (new) back deck's
length.  The two loops draw from independent oracle streams `r1`, `r2`. -/
def balance (front back : List String) (r1 r2 : Nat → Nat) :
    Except PyErr (List String × List String) :=
  match growTo front.length back r1 with
  | Except.error e => Except.error e
  | Except.ok back2 =>
      match growTo back2.length front r2 with
      | Except.error e => Except.error e
      | Except.ok front2 => Except.ok (front2, back2)

/-- Embedding of `DeckBuilder.__init__` (lines 48-61) after file reading: load the front
rows; when back rows are given, load them, balance, shuffle both decks
(`random.shuffle` is modelled by the oracle reorderings `sf`, `sb`), and
append `["*"] * wildcards` to the back deck; in either case finish by
appending `["*"] * wildcards` to the front deck.  Without back rows the
back deck is `[]` and neither `balance` nor `shuffle` runs. -/
def deckBuilderInit (frontRows : List (List String))
    (backRows : Option (List (List String))) (wildcards : Int)
    (r1 r2 : Nat → Nat) (sf sb : List String → List String) :
    Except PyErr (List String × List String) :=
  match load_csv frontRows with
  | Except.error e => Except.error e
  | Except.ok front =>
      match backRows with
      | some br =>
          match load_csv br with
          | Except.error e => Except.error e
          | Except.ok back =>
              match balance front back r1 r2 with
              | Except.error e => Except.error e
              | Except.ok (f2, b2) =>
                  Except.ok (sf f2 ++ pyRep "*" wildcards,
                             sb b2 ++ pyRep "*" wildcards)
      | none => Except.ok (front ++ pyRep "*" wildcards, [])

/-- The class constant `DeckBuilder.CARDS_PER_PAGE` (line 44). -/
def CARDS_PER_PAGE : Nat := 28

/-- Python slice `l[a:b]` for `0 ≤ a ≤ b` (line 108). -/
def pySlice (l : List α) (a b : Nat) : List α :=
  (l.drop a).take (b - a)

/-- The font size chosen for a card at lines 109-112 of `save`: 32 when
the card text equals the string `"*"`, else 14. -/
def fontSize (card : String) : Nat :=
  if card = "*" then 32 else 14

/-- Embedding of `total_pages` (lines 99-101): `math.ceil` of the maximum of the two
float divisions `len(deck) / 28`, with float division modelled as exact
rational division. -/
def totalPages (f b : Nat) : Nat :=
  Int.toNat ⌈max ((f : ℚ) / (CARDS_PER_PAGE : ℚ)) ((b : ℚ) / (CARDS_PER_PAGE : ℚ))⌉

/-- One page of rendering output: the cards placed on the page (in
placement order) and whether the mirrored x-positioning branch of line
113 was taken for them. -/
structure RenderedPage where
  cards : List String
  mirrored : Bool
  deriving DecidableEq, Repr

/-- The body of one iteration of the page loop (lines 104-122): place the
slice `side[page*28:(page+1)*28]`; the mirrored branch is taken when
`side == self.back_cards`, which Python evaluates as list VALUE equality. -/
def renderPage (side back : List String) (page : Nat) : RenderedPage :=
  ⟨pySlice side (page * CARDS_PER_PAGE) ((page + 1) * CARDS_PER_PAGE),
   decide (side = back)⟩

/-- The `while page < total_pages` loop of `DeckBuilder.save` (lines
103-127), with explicit fuel: `none` means the fuel ran out before the
loop exited.  After rendering a page the code switches to the back deck
when `self.back_cards` is non-empty and `side == self.front_cards`
(again list VALUE equality), otherwise advances `page` and returns to
the front deck. -/
def saveLoop (front back : List String) :
    Nat → Nat → List String → List RenderedPage → Option (List RenderedPage)
  | 0, _, _, _ => none
  | fuel + 1, page, side, acc =>
      if page < totalPages front.length back.length then
        let acc2 := acc ++ [renderPage side back page]
        if back ≠ [] ∧ side = front then
          saveLoop front back fuel page back acc2
        else
          saveLoop front back fuel (page + 1) front acc2
      else
        some acc

/-- Embedding of `DeckBuilder.save` (lines 93-128) reduced to its page-sequence output:
run the page loop from `page = 0` with `side = self.front_cards`. -/
def save (front back : List String) (fuel : Nat) : Option (List RenderedPage) :=
  saveLoop front back fuel 0 front []

/-- Spec-side description of one record's contribution to the deck: its
text repeated "weight" times, the weight read as `int(row[1])` clamped at
zero (Python list repetition by a negative count yields `[]`). -/
def specRowWeight (row : List String) : Nat :=
  match row with
  | _ :: w :: _ =>
      match pyInt w with
      | Except.ok k => k.toNat
      | Except.error _ => 0
  | _ => 0

/-- Spec-side accessor for a record's card text (its first field). -/
def specRowText (row : List String) : String :=
  match row with
  | t :: _ => t
  | [] => ""

/-- Spec-side description of the loaded deck: for each record in file
order, its text repeated its weight, concatenated. -/
def specExpand (rows : List (List String)) : List String :=
  (rows.map (fun row => List.replicate (specRowWeight row) (specRowText row))).flatten

/-- A record the loader can process without raising: at least two fields
and an integer-literal weight field. -/
def wellFormedRow (row : List String) : Prop :=
  ∃ t w rest, ∃ k : Int, row = t :: w :: rest ∧ pyInt w = Except.ok k

/-- Spec-side page sequence for two-deck output: for each page index in
order, the front deck's 28-card slice (unmirrored) immediately followed by
the back deck's slice for the same page (mirrored). -/
def specPagesTwo (front back : List String) : Nat → Nat → List RenderedPage
  | _, 0 => []
  | page, k + 1 =>
      ⟨pySlice front (page * CARDS_PER_PAGE) ((page + 1) * CARDS_PER_PAGE), false⟩ ::
      ⟨pySlice back (page * CARDS_PER_PAGE) ((page + 1) * CARDS_PER_PAGE), true⟩ ::
      specPagesTwo front back (page + 1) k

/-- Spec-side page sequence for single-deck output: the front deck's
28-card slices in page order, unmirrored. -/
def specPagesOne (front : List String) : Nat → Nat → List RenderedPage
  | _, 0 => []
  | page, k + 1 =>
      ⟨pySlice front (page * CARDS_PER_PAGE) ((page + 1) * CARDS_PER_PAGE), false⟩ ::
      specPagesOne front (page + 1) k

theorem ceil_div28 (n : Nat) :
    Int.toNat ⌈((n : ℚ)) / ((28 : Nat) : ℚ)⌉ = (n + 27) / 28 := by
  have h : -(((n : ℚ)) / ((28 : Nat) : ℚ))
      = (((-(n : Int)) : Int) : ℚ) / (((28 : Nat)) : ℚ) := by
    push_cast
    ring
  have h2 : ⌊-(((n : ℚ)) / ((28 : Nat) : ℚ))⌋ = -⌈((n : ℚ)) / ((28 : Nat) : ℚ)⌉ :=
    Int.floor_neg
  rw [h, Rat.floor_intCast_div_natCast] at h2
  omega

theorem totalPages_eq (f b : Nat) : totalPages f b = (max f b + 27) / 28 := by
  unfold totalPages CARDS_PER_PAGE
  rcases Nat.le_total f b with h | h
  · rw [max_eq_right, Nat.max_eq_right h, ceil_div28]
    exact div_le_div_of_nonneg_right (by exact_mod_cast h) (by norm_num)
  · rw [max_eq_left, Nat.max_eq_left h, ceil_div28]
    exact div_le_div_of_nonneg_right (by exact_mod_cast h) (by norm_num)

theorem specExpand_length (rows : List (List String)) :
    (specExpand rows).length = (rows.map specRowWeight).sum := by
  induction rows with
  | nil => simp [specExpand]
  | cons row rest ih =>
      simp [specExpand, List.length_flatten] at ih ⊢
      exact ih

theorem load_csv_ok_of_wf (rows : List (List String))
    (h : ∀ row ∈ rows, wellFormedRow row) :
    load_csv rows = Except.ok (specExpand rows) := by
  induction rows with
  | nil => simp [load_csv, specExpand]
  | cons row rest ih =>
      obtain ⟨t, w, rest', k, heq, hk⟩ := h row (List.mem_cons_self row rest)
      subst heq
      have ih2 := ih (fun r hr => h r (List.mem_cons_of_mem _ hr))
      simp [load_csv, loadRow, hk, ih2, specExpand, pyRep, specRowWeight, specRowText]

theorem load_csv_wf_of_ok (rows : List (List String)) (deck : List String)
    (h : load_csv rows = Except.ok deck) :
    ∀ row ∈ rows, wellFormedRow row := by
  induction rows generalizing deck with
  | nil => simp
  | cons row rest ih =>
      intro r hr
      rw [load_csv] at h
      rcases hrow : loadRow row with e | cs
      · rw [hrow] at h
        exact absurd h (by simp)
      · rw [hrow] at h
        rcases hrest : load_csv rest with e | more
        · rw [hrest] at h
          exact absurd h (by simp)
        · rcases List.mem_cons.mp hr with hEq | hmem
          · subst hEq
            rcases r with _ | ⟨t, _ | ⟨w, rest'⟩⟩
            · exact absurd hrow (by simp [loadRow])
            · exact absurd hrow (by simp [loadRow])
            · rcases hint : pyInt w with e | k
              · exact absurd hrow (by simp [loadRow, hint])
              · exact ⟨t, w, rest', k, rfl, hint⟩
          · exact ih more hrest r hmem

theorem pyInt_error (s : String) (e : PyErr) (h : pyInt s = Except.error e) :
    e = PyErr.valueError := by
  unfold pyInt at h
  split at h <;> (try split at h) <;> simp_all

theorem loadRow_error (row : List String) (e : PyErr) (h : loadRow row = Except.error e) :
    e = PyErr.indexError ∨ e = PyErr.valueError := by
  rcases row with _ | ⟨t, _ | ⟨w, rest⟩⟩
  · simp [loadRow] at h
    exact Or.inl h.symm
  · simp [loadRow] at h
    exact Or.inl h.symm
  · rcases hint : pyInt w with e2 | k
    · simp [loadRow, hint] at h
      exact Or.inr (h ▸ pyInt_error w e2 hint)
    · simp [loadRow, hint] at h

theorem load_csv_error (rows : List (List String)) (e : PyErr)
    (h : load_csv rows = Except.error e) :
    e = PyErr.indexError ∨ e = PyErr.valueError := by
  induction rows with
  | nil => simp [load_csv] at h
  | cons row rest ih =>
      rw [load_csv] at h
      rcases hrow : loadRow row with e2 | cs
      · rw [hrow] at h
        simp at h
        exact h ▸ loadRow_error row e2 hrow
      · rw [hrow] at h
        rcases hrest : load_csv rest with e2 | more
        · rw [hrest] at h
          simp at h
          exact ih (h ▸ hrest)
        · rw [hrest] at h
          simp at h

/-- C1: for an input whose records all have at least two fields and a
non-negative integer weight, `load_csv` returns the records' texts each
repeated its weight, in file order, and the deck length is the sum of
the weights. -/
theorem load_csv_weight_expansion (rows : List (List String))
    (h : ∀ row ∈ rows, ∃ t w rest, ∃ k : Nat,
        row = t :: w :: rest ∧ pyInt w = Except.ok ((k : Nat) : Int)) :
    load_csv rows = Except.ok (specExpand rows) ∧
    (specExpand rows).length = (rows.map specRowWeight).sum := by
  refine ⟨load_csv_ok_of_wf rows ?_, specExpand_length rows⟩
  intro row hr
  obtain ⟨t, w, rest, k, heq, hk⟩ := h row hr
  exact ⟨t, w, rest, (k : Int), heq, hk⟩

theorem load_csv_weight_expansion_witness :
    (∀ row ∈ [["A", "2"], ["B", "1"]], ∃ t w rest, ∃ k : Nat,
        row = t :: w :: rest ∧ pyInt w = Except.ok ((k : Nat) : Int)) ∧
    (load_csv [["A", "2"], ["B", "1"]] = Except.ok (specExpand [["A", "2"], ["B", "1"]]) ∧
     (specExpand [["A", "2"], ["B", "1"]]).length
        = ([["A", "2"], ["B", "1"]].map specRowWeight).sum) ∧
    specExpand [["A", "2"], ["B", "1"]] = ["A", "A", "B"] := by
  have hyp : ∀ row ∈ [["A", "2"], ["B", "1"]], ∃ t w rest, ∃ k : Nat,
      row = t :: w :: rest ∧ pyInt w = Except.ok ((k : Nat) : Int) := by
    intro row hr
    simp only [List.mem_cons, List.not_mem_nil, or_false] at hr
    rcases hr with h | h <;> subst h
    · exact ⟨"A", "2", [], 2, rfl, rfl⟩
    · exact ⟨"B", "1", [], 1, rfl, rfl⟩
  exact ⟨hyp, load_csv_weight_expansion _ hyp, rfl⟩

/-- C10: a record whose weight parses as a negative integer raises no
error and contributes zero cards; the loaded deck's length is the sum of
the clamped-at-zero contributions. -/
theorem load_csv_negative_weight (rows : List (List String))
    (h : ∀ row ∈ rows, wellFormedRow row) :
    load_csv rows = Except.ok (specExpand rows) ∧
    (specExpand rows).length = (rows.map specRowWeight).sum ∧
    (∀ row ∈ rows, ∀ t w rest, row = t :: w :: rest →
      ∀ k : Int, pyInt w = Except.ok k → k < 0 → specRowWeight row = 0) := by
  refine ⟨load_csv_ok_of_wf rows h, specExpand_length rows, ?_⟩
  intro row _ t w rest heq k hk hneg
  subst heq
  simp [specRowWeight, hk, Int.toNat_of_nonpos hneg.le]

theorem load_csv_negative_weight_witness :
    (∀ row ∈ [["A", "-3"], ["B", "2"]], wellFormedRow row) ∧
    load_csv [["A", "-3"], ["B", "2"]] = Except.ok (specExpand [["A", "-3"], ["B", "2"]]) ∧
    specExpand [["A", "-3"], ["B", "2"]] = ["B", "B"] := by
  have hyp : ∀ row ∈ [["A", "-3"], ["B", "2"]], wellFormedRow row := by
    intro row hr
    simp only [List.mem_cons, List.not_mem_nil, or_false] at hr
    rcases hr with h | h <;> subst h
    · exact ⟨"A", "-3", [], -3, rfl, rfl⟩
    · exact ⟨"B", "2", [], 2, rfl, rfl⟩
  exact ⟨hyp, (load_csv_negative_weight _ hyp).1, rfl⟩

/-- C7 counterexample: a one-field record raises `IndexError` and a
non-integer weight raises `ValueError`; neither is the `ParseError` the
claim names (the code defines no ParseError). -/
theorem load_csv_no_parse_error :
    load_csv [["A"]] = Except.error PyErr.indexError ∧
    load_csv [["A", "x"]] = Except.error PyErr.valueError ∧
    PyErr.indexError ≠ PyErr.parseError ∧
    PyErr.valueError ≠ PyErr.parseError := by
  refine ⟨rfl, rfl, ?_, ?_⟩ <;> intro h <;> cases h

/-- C7 amended: `load_csv` fails on every input containing a malformed
record and succeeds only when every record is well formed, but the
exception raised is the propagated built-in `IndexError` (wrong field
count) or `ValueError` (non-integer weight), never a `ParseError`. -/
theorem load_csv_malformed_fails (rows : List (List String)) :
    (∀ e, load_csv rows = Except.error e →
        e = PyErr.indexError ∨ e = PyErr.valueError) ∧
    ((∃ row ∈ rows, ¬ wellFormedRow row) → ∃ e, load_csv rows = Except.error e) ∧
    (∀ deck, load_csv rows = Except.ok deck → ∀ row ∈ rows, wellFormedRow row) := by
  refine ⟨fun e he => load_csv_error rows e he, ?_, fun deck hd => load_csv_wf_of_ok rows deck hd⟩
  intro hbad
  rcases hres : load_csv rows with e | deck
  · exact ⟨e, rfl⟩
  · obtain ⟨row, hr, hnw⟩ := hbad
    exact absurd (load_csv_wf_of_ok rows deck hres row hr) hnw

theorem load_csv_malformed_fails_witness :
    (∃ row ∈ [["A"]], ¬ wellFormedRow row) ∧
    (∃ e, load_csv [["A"]] = Except.error e) := by
  have hbad : ∃ row ∈ [["A"]], ¬ wellFormedRow row := by
    refine ⟨["A"], by simp, ?_⟩
    rintro ⟨t, w, rest, k, heq, -⟩
    simp at heq
  exact ⟨hbad, (load_csv_malformed_fails [["A"]]).2.1 hbad⟩

theorem pyChoice_ok (l : List α) (k : Nat) (h : l ≠ []) :
    ∃ x, pyChoice l k = Except.ok x ∧ x ∈ l := by
  have hlen : 0 < l.length := List.length_pos.mpr h
  have hlt : k % l.length < l.length := Nat.mod_lt k hlen
  refine ⟨l.get ⟨k % l.length, hlt⟩, ?_, List.get_mem l _ hlt⟩
  simp [pyChoice, List.get?_eq_get hlt, List.getElem?_eq_getElem hlt]

theorem growLoop_ok (n : Nat) :
    ∀ (deck : List α) (r : Nat → Nat), deck ≠ [] →
      ∃ ext, growLoop r n deck = Except.ok (deck ++ ext) ∧
        ext.length = n ∧ ∀ x ∈ ext, x ∈ deck := by
  induction n with
  | zero => exact fun deck r _ => ⟨[], by simp [growLoop]⟩
  | succ n ih =>
      intro deck r hd
      obtain ⟨x, hx, hxm⟩ := pyChoice_ok deck (r 0) hd
      obtain ⟨ext, hext, hlen, hmem⟩ :=
        ih (deck ++ [x]) (fun i => r (i + 1)) (by simp)
      refine ⟨x :: ext, ?_, by simp [hlen], ?_⟩
      · simp only [growLoop, hx, hext]
        simp
      · intro y hy
        rcases List.mem_cons.mp hy with hEq | hyx
        · exact hEq ▸ hxm
        · rcases List.mem_append.mp (hmem y hyx) with h1 | h2
          · exact h1
          · simpa using (List.mem_singleton.mp h2) ▸ hxm

theorem growTo_ok (target : Nat) (deck : List α) (r : Nat → Nat) (h : deck ≠ []) :
    ∃ ext, growTo target deck r = Except.ok (deck ++ ext) ∧
      ext.length = target - deck.length ∧ ∀ x ∈ ext, x ∈ deck :=
  growLoop_ok (target - deck.length) deck r h

/-- C2: balancing two non-empty decks yields decks of equal length, leaves
the originally longer deck unchanged, and extends the shorter one only by
appending entries drawn from its own contents. -/
theorem balance_equalizes (front back : List String) (r1 r2 : Nat → Nat)
    (hf : front ≠ []) (hb : back ≠ []) :
    ∃ f2 b2, balance front back r1 r2 = Except.ok (f2, b2) ∧
      f2.length = b2.length ∧
      (back.length ≤ front.length → f2 = front ∧
        ∃ ext, b2 = back ++ ext ∧ ∀ x ∈ ext, x ∈ back) ∧
      (front.length ≤ back.length → b2 = back ∧
        ∃ ext, f2 = front ++ ext ∧ ∀ x ∈ ext, x ∈ front) := by
  obtain ⟨ext1, h1, hlen1, hmem1⟩ := growTo_ok front.length back r1 hb
  obtain ⟨ext2, h2, hlen2, hmem2⟩ := growTo_ok (back ++ ext1).length front r2 hf
  refine ⟨front ++ ext2, back ++ ext1, ?_, ?_, ?_, ?_⟩
  · simp only [balance, h1, h2]
  · simp only [List.length_append] at hlen2 ⊢
    omega
  · intro hba
    have hz : ext2.length = 0 := by
      simp only [List.length_append] at hlen2
      omega
    exact ⟨by simp [List.length_eq_zero.mp hz], ext1, rfl, hmem1⟩
  · intro hab
    have hz : ext1.length = 0 := by omega
    have hb2 : back ++ ext1 = back := by simp [List.length_eq_zero.mp hz]
    exact ⟨hb2, ext2, rfl, hmem2⟩

theorem balance_equalizes_witness :
    (["a", "b"] : List String) ≠ [] ∧ (["c"] : List String) ≠ [] ∧
    (∃ f2 b2, balance ["a", "b"] ["c"] (fun _ => 0) (fun _ => 0) = Except.ok (f2, b2) ∧
      f2.length = b2.length) := by
  have h := balance_equalizes ["a", "b"] ["c"] (fun _ => 0) (fun _ => 0)
    (by simp) (by simp)
  obtain ⟨f2, b2, heq, hlen, -, -⟩ := h
  exact ⟨by simp, by simp, f2, b2, heq, hlen⟩

/-- C6 counterexample: balancing a non-empty front against an empty back
raises `IndexError` (from `random.choice` on the empty list), not the
`EmptyDeckError` the claim names — the code defines no such error. -/
theorem balance_empty_not_empty_deck_error :
    balance ["a"] [] (fun _ => 0) (fun _ => 0) = Except.error PyErr.indexError ∧
    PyErr.indexError ≠ PyErr.emptyDeckError := by
  refine ⟨rfl, ?_⟩
  intro h
  cases h

/-- C6 amended: when exactly one deck is empty, `balance` fails explicitly
— it raises the built-in `IndexError` from `random.choice` on an empty
sequence (the code defines no `EmptyDeckError`) — rather than looping
forever or returning a result. -/
theorem balance_empty_raises (front back : List String) (r1 r2 : Nat → Nat) :
    (front ≠ [] → back = [] → balance front back r1 r2 = Except.error PyErr.indexError) ∧
    (front = [] → back ≠ [] → balance front back r1 r2 = Except.error PyErr.indexError) := by
  constructor
  · intro hf hb
    subst hb
    rcases front with _ | ⟨x, rest⟩
    · exact absurd rfl hf
    · simp [balance, growTo, growLoop, pyChoice]
  · intro hf hb
    subst hf
    rcases back with _ | ⟨x, rest⟩
    · exact absurd rfl hb
    · simp [balance, growTo, growLoop, pyChoice]

theorem balance_empty_raises_witness :
    (["a"] : List String) ≠ [] ∧ ([] : List String) = [] ∧
    balance ["a"] [] (fun _ => 1) (fun _ => 1) = Except.error PyErr.indexError :=
  ⟨by simp, rfl, (balance_empty_raises ["a"] [] (fun _ => 1) (fun _ => 1)).1 (by simp) rfl⟩

theorem growLoop_length (n : Nat) :
    ∀ (deck res : List α) (r : Nat → Nat),
      growLoop r n deck = Except.ok res → res.length = deck.length + n := by
  induction n with
  | zero =>
      intro deck res r h
      simp [growLoop] at h
      simp [h]
  | succ n ih =>
      intro deck res r h
      rcases hx : pyChoice deck (r 0) with e | x
      · simp [growLoop, hx] at h
      · simp only [growLoop, hx] at h
        have := ih (deck ++ [x]) res (fun i => r (i + 1)) h
        simp at this
        omega

theorem balance_ok_lengths (front back f2 b2 : List String) (r1 r2 : Nat → Nat)
    (h : balance front back r1 r2 = Except.ok (f2, b2)) : f2.length = b2.length := by
  rcases h1 : growTo front.length back r1 with e | back2
  · simp [balance, h1] at h
  · rcases h2 : growTo back2.length front r2 with e | front2
    · simp [balance, h1, h2] at h
    · simp only [balance, h1, h2, Except.ok.injEq, Prod.mk.injEq] at h
      obtain ⟨hfr, hbk⟩ := h
      have hl1 := growLoop_length (front.length - back.length) back back2 r1 h1
      have hl2 := growLoop_length (back2.length - front.length) front front2 r2 h2
      subst hfr
      subst hbk
      omega

/-- C3: with both decks present the constructor appends exactly `n`
wildcard markers to the end of each deck, on top of pre-append decks of
equal length, so both decks grow by `n` and the markers sit at matching
final positions; with only a front deck it appends exactly `n` markers to
its end. -/
theorem wildcards_appended (frontRows backRows : List (List String)) (n : Nat)
    (r1 r2 : Nat → Nat) (sf sb : List String → List String)
    (hsf : ∀ l, (sf l).Perm l) (hsb : ∀ l, (sb l).Perm l) :
    (∀ f2 b2, deckBuilderInit frontRows (some backRows) (n : Int) r1 r2 sf sb
        = Except.ok (f2, b2) →
      ∃ f0 b0, f0.length = b0.length ∧
        f2 = f0 ++ List.replicate n "*" ∧ b2 = b0 ++ List.replicate n "*") ∧
    (∀ f2 b2, deckBuilderInit frontRows none (n : Int) r1 r2 sf sb
        = Except.ok (f2, b2) →
      ∃ f0, f2 = f0 ++ List.replicate n "*" ∧ b2 = []) := by
  constructor
  · intro f2 b2 h
    rcases hfr : load_csv frontRows with e | front
    · simp [deckBuilderInit, hfr] at h
    · rcases hbr : load_csv backRows with e | back
      · simp [deckBuilderInit, hfr, hbr] at h
      · rcases hbal : balance front back r1 r2 with e | ⟨fb, bb⟩
        · simp [deckBuilderInit, hfr, hbr, hbal] at h
        · simp only [deckBuilderInit, hfr, hbr, hbal, Except.ok.injEq, Prod.mk.injEq] at h
          obtain ⟨hf2, hb2⟩ := h
          refine ⟨sf fb, sb bb, ?_, ?_, ?_⟩
          · rw [(hsf fb).length_eq, (hsb bb).length_eq]
            exact balance_ok_lengths front back fb bb r1 r2 hbal
          · rw [← hf2]
            simp [pyRep]
          · rw [← hb2]
            simp [pyRep]
  · intro f2 b2 h
    rcases hfr : load_csv frontRows with e | front
    · simp [deckBuilderInit, hfr] at h
    · simp only [deckBuilderInit, hfr, Except.ok.injEq, Prod.mk.injEq] at h
      obtain ⟨hf2, hb2⟩ := h
      refine ⟨front, ?_, hb2.symm⟩
      rw [← hf2]
      simp [pyRep]

theorem wildcards_appended_witness :
    (∀ l : List String, (id l).Perm l) ∧
    deckBuilderInit [["A", "1"]] (some [["B", "1"]]) 1 (fun _ => 0) (fun _ => 0) id id
      = Except.ok (["A", "*"], ["B", "*"]) ∧
    (∃ f0 b0 : List String, f0.length = b0.length ∧
      ["A", "*"] = f0 ++ List.replicate 1 "*" ∧ ["B", "*"] = b0 ++ List.replicate 1 "*") := by
  have hperm : ∀ l : List String, (id l).Perm l := fun l => List.Perm.refl l
  have h := (wildcards_appended [["A", "1"]] [["B", "1"]] 1 (fun _ => 0) (fun _ => 0)
    id id hperm hperm).1 ["A", "*"] ["B", "*"] (by rfl)
  exact ⟨hperm, by rfl, h⟩

/-- C9: without a back CSV neither balancing nor shuffling runs: for any
oracle streams and any shuffle reorderings, the constructed front deck is
exactly the `load_csv` result followed by `n` wildcard markers, and the
back deck is empty. -/
theorem no_back_no_shuffle (frontRows : List (List String)) (n : Nat)
    (deck : List String) (h : load_csv frontRows = Except.ok deck)
    (r1 r2 : Nat → Nat) (sf sb : List String → List String) :
    deckBuilderInit frontRows none (n : Int) r1 r2 sf sb
      = Except.ok (deck ++ List.replicate n "*", []) := by
  simp [deckBuilderInit, h, pyRep]

theorem no_back_no_shuffle_witness :
    load_csv [["A", "2"], ["B", "1"]] = Except.ok ["A", "A", "B"] ∧
    deckBuilderInit [["A", "2"], ["B", "1"]] none 1 (fun _ => 0) (fun _ => 0)
      (fun l => l.reverse) (fun l => l.reverse)
      = Except.ok (["A", "A", "B", "*"], []) ∧
    (["A", "A", "B", "*"] : List String).length = 4 := by
  refine ⟨rfl, ?_, rfl⟩
  have h := no_back_no_shuffle [["A", "2"], ["B", "1"]] 1 ["A", "A", "B"] rfl
    (fun _ => 0) (fun _ => 0) (fun l => l.reverse) (fun l => l.reverse)
  simpa using h

/-- C5 counterexample: the wildcard sentinel is the plain string `"*"`,
which collides with real card text: a deck built with zero wildcards from
an input record whose text is `"*"` holds that loaded card, and the
renderer picks the larger wildcard font 32 for it. -/
theorem wildcard_font_collision :
    deckBuilderInit [["*", "1"]] none 0 (fun _ => 0) (fun _ => 0) id id
      = Except.ok (["*"], []) ∧
    fontSize "*" = 32 ∧ (32 : Nat) ≠ 14 :=
  ⟨rfl, rfl, by decide⟩

/-- C5 amended: a card is rendered in the larger font exactly when its
text equals the string `"*"` — whether it was appended by the wildcard
step or loaded from an input file — and in the standard font otherwise. -/
theorem fontSize_star (card : String) :
    (fontSize card = 32 ↔ card = "*") ∧ (card ≠ "*" → fontSize card = 14) := by
  unfold fontSize
  by_cases h : card = "*" <;> simp [h]

theorem fontSize_star_witness :
    ("A" : String) ≠ "*" ∧ fontSize "A" = 14 ∧ (fontSize "*" = 32 ↔ ("*" : String) = "*") :=
  ⟨by decide, (fontSize_star "A").2 (by decide), (fontSize_star "*").1⟩

theorem saveLoop_one (front : List String) (k : Nat) :
    ∀ (page : Nat) (acc : List RenderedPage),
      page + k = totalPages front.length 0 →
      saveLoop front [] (k + 1) page front acc
        = some (acc ++ specPagesOne front page k) := by
  induction k with
  | zero =>
      intro page acc h
      have hnlt : ¬ page < totalPages front.length 0 := by omega
      simp [saveLoop, hnlt, specPagesOne]
  | succ k ih =>
      intro page acc h
      have hlt : page < totalPages front.length 0 := by omega
      have hpos : 1 ≤ totalPages front.length 0 := by omega
      have hfl : 1 ≤ front.length := by
        rw [totalPages_eq] at hpos
        omega
      have hne : front ≠ [] := by
        intro hcon
        rw [hcon] at hfl
        simp at hfl
      have step : saveLoop front [] (k + 1 + 1) page front acc
          = saveLoop front [] (k + 1) (page + 1) front (acc ++ [renderPage front [] page]) := by
        simp [saveLoop, hlt]
      rw [step, ih (page + 1) (acc ++ [renderPage front [] page]) (by omega)]
      simp [specPagesOne, renderPage, hne]

theorem saveLoop_two (front back : List String) (hb : back ≠ []) (hne : front ≠ back) (k : Nat) :
    ∀ (page : Nat) (acc : List RenderedPage),
      page + k = totalPages front.length back.length →
      saveLoop front back (2 * k + 1) page front acc
        = some (acc ++ specPagesTwo front back page k) := by
  induction k with
  | zero =>
      intro page acc h
      have hnlt : ¬ page < totalPages front.length back.length := by omega
      simp [saveLoop, hnlt, specPagesTwo]
  | succ k ih =>
      intro page acc h
      have hlt : page < totalPages front.length back.length := by omega
      have hfuel : 2 * (k + 1) + 1 = (2 * k + 1) + 1 + 1 := by ring
      have hneq : ¬ (back = front) := fun hcon => hne hcon.symm
      have step1 : saveLoop front back ((2 * k + 1) + 1 + 1) page front acc
          = saveLoop front back ((2 * k + 1) + 1) page back
              (acc ++ [renderPage front back page]) := by
        simp [saveLoop, hlt, hb]
      have step2 : saveLoop front back ((2 * k + 1) + 1) page back
              (acc ++ [renderPage front back page])
          = saveLoop front back (2 * k + 1) (page + 1) front
              ((acc ++ [renderPage front back page]) ++ [renderPage back back page]) := by
        simp [saveLoop, hlt, hneq]
      rw [hfuel, step1, step2,
        ih (page + 1) ((acc ++ [renderPage front back page]) ++ [renderPage back back page])
          (by omega)]
      simp [specPagesTwo, renderPage, hne]

theorem saveLoop_equal_decks_none (d : List String) (hd : d ≠ []) :
    ∀ (fuel : Nat) (acc : List RenderedPage),
      saveLoop d d fuel 0 d acc = none := by
  intro fuel
  induction fuel with
  | zero => intro acc; simp [saveLoop]
  | succ fuel ih =>
      intro acc
      have hfl : 1 ≤ d.length := List.length_pos.mpr hd
      have hlt : 0 < totalPages d.length d.length := by
        rw [totalPages_eq]
        omega
      simp [saveLoop, hlt, hd, ih]

/-- C4 counterexample: front and back decks both equal to `["A"]` — a
constructible state (front CSV `A,1`, back CSV `A,1`, zero wildcards) with
one expected page pair — yield NO output for any amount of fuel: the page
loop never terminates, because the `side == self.front_cards` test
compares by value, so with value-equal decks `side` stays on the back deck
and `page` is never incremented. -/
theorem save_equal_decks_no_output :
    totalPages (["A"] : List String).length (["A"] : List String).length = 1 ∧
    ¬ ∃ fuel pages, save ["A"] ["A"] fuel = some pages := by
  constructor
  · rw [totalPages_eq]
    decide
  · rintro ⟨fuel, pages, h⟩
    rw [show save ["A"] ["A"] fuel = saveLoop ["A"] ["A"] fuel 0 ["A"] [] from rfl,
      saveLoop_equal_decks_none ["A"] (by simp) fuel []] at h
    cases h

/-- C4 amended: `save` computes the page count as
`ceil(max(len(front), len(back)) / 28)`; when no back deck exists the
output is the front deck's slices in page order, and when a back deck
exists AND the two decks are not value-equal (value-equal decks hang the
loop, see the C8 analysis) the output interleaves, for each page index in
order, the front deck's slice then the back deck's slice. -/
theorem save_page_structure (front back : List String) :
    totalPages front.length back.length = (max front.length back.length + 27) / 28 ∧
    (back = [] →
      save front back (totalPages front.length 0 + 1)
        = some (specPagesOne front 0 (totalPages front.length 0))) ∧
    (back ≠ [] → front ≠ back →
      save front back (2 * totalPages front.length back.length + 1)
        = some (specPagesTwo front back 0 (totalPages front.length back.length))) := by
  refine ⟨totalPages_eq _ _, ?_, ?_⟩
  · intro hb
    subst hb
    simpa [save] using saveLoop_one front (totalPages front.length 0) 0 [] (by omega)
  · intro hb hne
    simpa [save] using
      saveLoop_two front back hb hne (totalPages front.length back.length) 0 [] (by omega)

theorem save_page_structure_witness :
    (["B"] : List String) ≠ [] ∧ (["A"] : List String) ≠ ["B"] ∧
    save ["A"] ["B"] (2 * totalPages 1 1 + 1)
      = some (specPagesTwo ["A"] ["B"] 0 (totalPages 1 1)) ∧
    totalPages 1 1 = 1 ∧
    specPagesTwo ["A"] ["B"] 0 1 = [⟨["A"], false⟩, ⟨["B"], true⟩] := by
  have ht : totalPages 1 1 = 1 := by
    rw [totalPages_eq]
    decide
  have h := (save_page_structure ["A"] ["B"]).2.2 (by simp) (by simp)
  exact ⟨by simp, by simp, by simpa using h, ht, rfl⟩

/-- C8: the page-rendering loop of `save` does NOT terminate for every
constructed state: with value-equal non-empty decks (such as front and
back both `["A", "*"]`, built from identical one-card CSVs plus one
wildcard) the loop runs out of any amount of fuel, because the
`side == self.front_cards` switch test uses list value equality, so
`side` can never return to advance `page`. -/
theorem save_loop_diverges_on_equal_decks (fuel : Nat) :
    0 < totalPages (["A", "*"] : List String).length (["A", "*"] : List String).length ∧
    save ["A", "*"] ["A", "*"] fuel = none := by
  constructor
  · rw [totalPages_eq]
    decide
  · exact saveLoop_equal_decks_none ["A", "*"] (by simp) fuel []
